import Mathlib

/-!
Verification development for the skupper-X trust-and-topology control engine.

The definitions below shallowly embed the relevant parts of the source:

* the certificate-authority pipeline workers `processNewNetworks` and
  `processCertificateRequests` (certificate worker module), including the
  transactional BEGIN/COMMIT/ROLLBACK discipline around each pass;
* the database rows they touch (`ApplicationNetworks`, `CertificateRequests`,
  `TlsCertificates` from the schema file);
* the site-synchronization protocol module of `mc-apiserver.js`
  (`Heartbeat`, `GetObject`, `AssertClaim`, `DispatchMessage`);
* the API-server handlers `listInvitations` (connection discipline) and
  `addHostToAccessPoint`;
* the MemberInvitation CLAIM admission control (modelled from the spec,
  since the CLAIM handler body is not among the provided sources).

Timestamps are embedded as `Int` milliseconds since the epoch (the value of
JavaScript `Date.getTime()`); interval columns such as `DeleteDelay` are
embedded as their millisecond conversion (`db.IntervalMilliseconds`).
-/

/-- A row of the `ApplicationNetworks` table (schema file): identity, name,
operational status, validity window and the post-end grace period.
`startTime`/`endTime` are `getTime()` milliseconds; `deleteDelay` is the
`IntervalMilliseconds` conversion of the interval column. -/
structure NetworkRow where
  id : Nat
  name : String
  operStatus : String
  startTime : Int
  endTime : Option Int
  deleteDelay : Int
  deriving DecidableEq

/-- A row of the `CertificateRequests` table (schema file): request kind,
creation time, not-before time, desired expiration, subject network reference
and the in-flight `Processing` flag consulted by the fulfillment worker. -/
structure CertRequestRow where
  id : Nat
  requestType : String
  createdTime : Int
  requestTime : Int
  expireTime : Int
  applicationNetwork : Option Nat
  processing : Bool
  deriving DecidableEq

/-- A row of the `TlsCertificates` table (schema file). -/
structure TlsCertRow where
  id : Nat
  isCA : Bool
  signedBy : Option Nat
  expiration : Int
  deriving DecidableEq

/-- The slice of the topology store the certificate pipeline reads and
writes.  List order stands in for the database's unspecified scan order. -/
structure Store where
  networks : List NetworkRow
  certRequests : List CertRequestRow
  tlsCerts : List TlsCertRow
  deriving DecidableEq

/-- The query `SELECT * FROM ApplicationNetworks WHERE OperStatus = 'new' LIMIT 1`:
the first network in scan order whose status is `new`. -/
def selectNewNetwork (s : Store) : Option NetworkRow :=
  s.networks.find? (fun n => n.operStatus = "new")

/-- The expiration computed by `processNewNetworks` for the forthcoming
network CA: `endtime + IntervalMilliseconds(deletedelay)` when the network
has an end time, otherwise
`starttime + IntervalMilliseconds(config.DefaultCaExpiration())`.
`dca` is the configured default CA lifetime in milliseconds. -/
def computeExpireTime (dca : Int) (row : NetworkRow) : Int :=
  match row.endTime with
  | some e => e + row.deleteDelay
  | none => row.startTime + dca

/-- The `CertificateRequests` row inserted by `processNewNetworks`:
`(gen_random_uuid(), 'vanCA', now(), row.starttime, expire_time, row.id)`.
`fid` stands for the generated uuid, `now` for `now()`. -/
def vanCaRequestFor (now : Int) (fid : Nat) (dca : Int) (row : NetworkRow) : CertRequestRow :=
  { id := fid
    requestType := "vanCA"
    createdTime := now
    requestTime := row.startTime
    expireTime := computeExpireTime dca row
    applicationNetwork := some row.id
    processing := false }

/-- The INSERT statement of `processNewNetworks`, as a store mutation. -/
def insertVanCaRequest (now : Int) (fid : Nat) (dca : Int) (row : NetworkRow) (s : Store) : Store :=
  { s with certRequests := s.certRequests ++ [vanCaRequestFor now fid dca row] }

/-- The query `UPDATE ApplicationNetworks SET OperStatus =
'cert_request_created' WHERE Id = $1`, as a store mutation. -/
def advanceNetworkStatus (nid : Nat) (s : Store) : Store :=
  { s with networks := s.networks.map (fun n =>
      if n.id = nid then { n with operStatus := "cert_request_created" } else n) }

/-- A pooled client with PostgreSQL transaction semantics: `committed` is the
durable database state, `pending` the state visible inside the client's
current transaction. -/
structure TxClient where
  committed : Store
  pending : Store
  deriving DecidableEq

/-- The query BEGIN: the transaction starts from the committed state. -/
def txBegin (c : TxClient) : TxClient :=
  { c with pending := c.committed }

/-- A mutating query inside the transaction: applies to the pending state. -/
def txApply (f : Store → Store) (c : TxClient) : TxClient :=
  { c with pending := f c.pending }

/-- The query COMMIT: the pending state becomes durable. -/
def txCommit (c : TxClient) : TxClient :=
  { c with committed := c.pending }

/-- The query ROLLBACK: the pending state is discarded. -/
def txRollback (c : TxClient) : TxClient :=
  { c with pending := c.committed }

/-- One pass of the network-intake worker `processNewNetworks`, with error
injection: `failAt = some k` means the k-th awaited query (0 = BEGIN,
1 = SELECT, 2 = INSERT (or COMMIT when no row), 3 = UPDATE, 4 = COMMIT)
throws before taking effect, upon which the catch block issues ROLLBACK.
Returns the client state and whether an error was thrown. -/
def processNewNetworksTx (now : Int) (fid : Nat) (dca : Int) (failAt : Option Nat)
    (c0 : TxClient) : TxClient × Bool :=
  if failAt = some 0 then (txRollback c0, true) else
  let c1 := txBegin c0
  if failAt = some 1 then (txRollback c1, true) else
  match selectNewNetwork c1.pending with
  | none =>
      if failAt = some 2 then (txRollback c1, true) else (txCommit c1, false)
  | some row =>
      if failAt = some 2 then (txRollback c1, true) else
      let c2 := txApply (insertVanCaRequest now fid dca row) c1
      if failAt = some 3 then (txRollback c2, true) else
      let c3 := txApply (advanceNetworkStatus row.id) c2
      if failAt = some 4 then (txRollback c3, true) else
      (txCommit c3, false)

/-- The committed effect of one error-free pass of `processNewNetworks`. -/
def processNewNetworksPass (now : Int) (fid : Nat) (dca : Int) (s : Store) : Store :=
  ((processNewNetworksTx now fid dca none ⟨s, s⟩).1).committed

/-- Whether a `CertificateRequests` row satisfies the fulfillment worker's
WHERE clause `RequestTime <= now() and not Processing`. -/
def requestEligible (now : Int) (r : CertRequestRow) : Bool :=
  decide (r.requestTime ≤ now) && !r.processing

/-- The query `SELECT * FROM CertificateRequests WHERE RequestTime <= now() and not
Processing ORDER BY CreatedTime LIMIT 1`: among eligible rows, one of
minimal `CreatedTime` (ties resolved by scan order). -/
def selectCertRequest (now : Int) (s : Store) : Option CertRequestRow :=
  (s.certRequests.filter (requestEligible now)).argmin (·.createdTime)

/-- The query `UPDATE CertificateRequests SET Processing = true WHERE Id = $1`,
as a store mutation. -/
def markProcessing (rid : Nat) (s : Store) : Store :=
  { s with certRequests := s.certRequests.map (fun r =>
      if r.id = rid then { r with processing := true } else r) }

/-- One pass of the fulfillment worker `processCertificateRequests`, with
error injection as in `processNewNetworksTx` (0 = BEGIN, 1 = SELECT,
2 = UPDATE (or COMMIT when no row), 3 = COMMIT).  The body only marks the
selected request `Processing = true`; certificate generation is an
unimplemented TODO in the source. -/
def processCertificateRequestsTx (now : Int) (failAt : Option Nat)
    (c0 : TxClient) : TxClient × Bool :=
  if failAt = some 0 then (txRollback c0, true) else
  let c1 := txBegin c0
  if failAt = some 1 then (txRollback c1, true) else
  match selectCertRequest now c1.pending with
  | none =>
      if failAt = some 2 then (txRollback c1, true) else (txCommit c1, false)
  | some row =>
      if failAt = some 2 then (txRollback c1, true) else
      let c2 := txApply (markProcessing row.id) c1
      if failAt = some 3 then (txRollback c2, true) else
      (txCommit c2, false)

/-- The committed effect of one error-free pass of
`processCertificateRequests`. -/
def processCertificateRequestsPass (now : Int) (s : Store) : Store :=
  ((processCertificateRequestsTx now none ⟨s, s⟩).1).committed

/-!  Site-synchronization protocol module (second half of the api-server
source): message constructors and `DispatchMessage`.  `V` abstracts the
JavaScript values carried in envelope fields; a field absent from the
envelope object (JavaScript `undefined`) is `none`. -/

/-- A protocol envelope: `version` and `op` plus the per-operation fields
(`site`/`hashset`/`address` for HB, `site`/`objectname` for GET,
`claim`/`name` for CLAIM).  Absent fields are `none`. -/
structure SyncMessage (V : Type) where
  version : Int
  op : String
  site : Option V
  hashset : Option V
  address : Option V
  objectname : Option V
  claim : Option V
  name : Option V
  deriving DecidableEq

/-- One handler invocation performed by `DispatchMessage`, recording which
of the four handler arguments was called and with which values. -/
inductive HandlerCall (V : Type) where
  | hb (site hashset address : Option V)
  | solicit (a b : Option V)
  | get (site objectname : Option V)
  | claim (claimId name : Option V)
  deriving DecidableEq

/-- The constructor `exports.Heartbeat(fromSite, hashSet, address)`: version-1 envelope with
op `HB`. -/
def Heartbeat {V : Type} (fromSite hashSet address : V) : SyncMessage V :=
  { version := 1
    op := "HB"
    site := some fromSite
    hashset := some hashSet
    address := some address
    objectname := none
    claim := none
    name := none }

/-- The constructor `exports.GetObject(fromSite, objectName)`: version-1 envelope with op
`GET`. -/
def GetObject {V : Type} (fromSite objectName : V) : SyncMessage V :=
  { version := 1
    op := "GET"
    site := some fromSite
    hashset := none
    address := none
    objectname := some objectName
    claim := none
    name := none }

/-- The constructor `exports.AssertClaim(claimId, name)`: version-1 envelope with op
`CLAIM`. -/
def AssertClaim {V : Type} (claimId name : V) : SyncMessage V :=
  { version := 1
    op := "CLAIM"
    site := none
    hashset := none
    address := none
    objectname := none
    claim := some claimId
    name := some name }

/-- The dispatcher `exports.DispatchMessage(body, onHeartbeat, onSolicit,
onGet, onClaim)`:
throws on a version other than 1, routes `HB`/`GET`/`CLAIM` to the matching
handler, and throws on any other op-code.  The result records the error
thrown or the list of handler invocations performed. -/
def DispatchMessage {V : Type} (body : SyncMessage V) :
    Except String (List (HandlerCall V)) :=
  if body.version ≠ 1 then
    Except.error "Unsupported protocol version"
  else if body.op = "HB" then
    Except.ok [HandlerCall.hb body.site body.hashset body.address]
  else if body.op = "GET" then
    Except.ok [HandlerCall.get body.site body.objectname]
  else if body.op = "CLAIM" then
    Except.ok [HandlerCall.claim body.claim body.name]
  else
    Except.error ("Unknown op-code " ++ body.op)

/-!  MemberInvitation claim admission control. -/

/-- A row of the `MemberInvitations` table (schema file): join deadline
(milliseconds), instance limit and current instance count. -/
structure MemberInvitation where
  joinDeadline : Int
  instanceLimit : Int
  instanceCount : Int
  deriving DecidableEq

/-- Modelled from the spec: the CLAIM handler body is not among the provided
sources (only the `MemberInvitations` schema and the protocol dispatcher
are), so this follows the spec's words: a MemberInvitation may only produce
a successful CLAIM while `now() <= JoinDeadline` and
`InstanceCount < InstanceLimit`, incrementing `InstanceCount` atomically
with the claim; otherwise the claim fails (`none`). -/
def claimInvitation (now : Int) (inv : MemberInvitation) :
    Option MemberInvitation :=
  if now ≤ inv.joinDeadline ∧ inv.instanceCount < inv.instanceLimit then
    some { inv with instanceCount := inv.instanceCount + 1 }
  else
    none

/-!  `addHostToAccessPoint` (api-server source). -/

/-- A row of the `BackboneAccessPoints` table as consulted by
`addHostToAccessPoint`: hostname and port are `none` while unset. -/
structure AccessPointRow where
  id : Nat
  hostname : Option String
  port : Option String
  lifecycle : String
  deriving DecidableEq

/-- A row of the `InteriorSites` table as consulted by
`addHostToAccessPoint`: the three access-point reference columns. -/
structure InteriorSiteRow where
  id : String
  managementAccess : Option Nat
  memberAccess : Option Nat
  peerAccess : Option Nat
  deriving DecidableEq

/-- The store slice `addHostToAccessPoint` reads and writes. -/
structure ApStore where
  interiorSites : List InteriorSiteRow
  accessPoints : List AccessPointRow
  deriving DecidableEq

/-- The switch on the ingress key: `skx-manage`/`skx-member`/`skx-peer`
select the corresponding reference column; any other key throws. -/
inductive AccessRef where
  | manage
  | member
  | peer
  deriving DecidableEq

/-- The `switch (key)` of `addHostToAccessPoint`. -/
def keyToRef (key : String) : Option AccessRef :=
  if key = "skx-manage" then some AccessRef.manage
  else if key = "skx-member" then some AccessRef.member
  else if key = "skx-peer" then some AccessRef.peer
  else none

/-- The reference column named by `ref` on an `InteriorSites` row. -/
def refField (ref : AccessRef) (site : InteriorSiteRow) : Option Nat :=
  match ref with
  | AccessRef.manage => site.managementAccess
  | AccessRef.member => site.memberAccess
  | AccessRef.peer => site.peerAccess

/-- The SELECT of `addHostToAccessPoint`: join `InteriorSites` (by `bsid`)
with `BackboneAccessPoints` on the selected reference column; a row comes
back only when the site exists, its reference column is non-null, and the
referenced access point exists. -/
def lookupAccess (s : ApStore) (bsid : String) (ref : AccessRef) :
    Option AccessPointRow :=
  match s.interiorSites.find? (fun site => site.id = bsid) with
  | none => none
  | some site =>
    match refField ref site with
    | none => none
    | some apid => s.accessPoints.find? (fun ap => ap.id = apid)

/-- JavaScript truthiness of a nullable text column: `null` and the empty
string are falsy. -/
def truthyText : Option String → Bool
  | none => false
  | some s => !s.isEmpty

/-- The handler `addHostToAccessPoint(bsid, key, hostname, port)`: returns the `retval`
(1 on success, 0 on any thrown error) together with the resulting committed
store (the transaction is rolled back on every error path, so the store is
returned unchanged there).  On success the UPDATE sets the access point's
Hostname, Port and `Lifecycle = 'new'` and the transaction commits. -/
def addHostToAccessPoint (s : ApStore) (bsid key hostname port : String) :
    Nat × ApStore :=
  match keyToRef key with
  | none => (0, s)
  | some ref =>
    match lookupAccess s bsid ref with
    | none => (0, s)
    | some access =>
      if truthyText access.hostname then (0, s)
      else if access.lifecycle ≠ "partial" then (0, s)
      else
        (1, { s with accessPoints := s.accessPoints.map (fun ap =>
          if ap.id = access.id then
            { ap with hostname := some hostname
                      port := some port
                      lifecycle := "new" }
          else ap) })

/-!  Pooled-connection discipline. -/

/-- Events on the shared connection pool performed by one unit of work. -/
inductive ConnAction where
  | acquire
  | release
  deriving DecidableEq

/-- Connection events of one `processNewNetworks` pass, by outcome: the
worker acquires a client, runs the transaction (committing or, on a thrown
error, rolling back in the catch block), and the `finally` block releases
the client on both paths. -/
def processNewNetworksConnTrace (txThrows : Bool) : List ConnAction :=
  if txThrows then [ConnAction.acquire, ConnAction.release]
  else [ConnAction.acquire, ConnAction.release]

/-- Connection events of one `processCertificateRequests` pass: identical
`finally`-release structure. -/
def processCertificateRequestsConnTrace (txThrows : Bool) : List ConnAction :=
  if txThrows then [ConnAction.acquire, ConnAction.release]
  else [ConnAction.acquire, ConnAction.release]

/-- Connection events of one `addHostToAccessPoint` invocation: the catch
block rolls back and the `finally` block releases on both paths. -/
def addHostToAccessPointConnTrace (txThrows : Bool) : List ConnAction :=
  if txThrows then [ConnAction.acquire, ConnAction.release]
  else [ConnAction.acquire, ConnAction.release]

/-- Connection events of one `listInvitations` invocation: the handler has
no try/catch/finally, so when `client.query` throws, the function exits
before reaching `client.release()` and the connection is never released. -/
def listInvitationsConnTrace (queryThrows : Bool) : List ConnAction :=
  if queryThrows then [ConnAction.acquire]
  else [ConnAction.acquire, ConnAction.release]

/-- A unit of work's trace releases every connection it acquires. -/
def releasesAllAcquired (t : List ConnAction) : Bool :=
  t.count ConnAction.release == t.count ConnAction.acquire

/-- C7: for all argument values, a message built by `Heartbeat` dispatches
to exactly the heartbeat handler with `(fromSite, hashSet, address)`, a
message built by `GetObject` to exactly the get handler with
`(fromSite, objectName)`, and a message built by `AssertClaim` to exactly
the claim handler with `(claimId, name)` — no other handler is invoked and
no error is thrown. -/
theorem constructors_dispatch_roundtrip {V : Type}
    (fromSite hashSet address objectName claimId name : V) :
    DispatchMessage (Heartbeat fromSite hashSet address)
      = Except.ok [HandlerCall.hb (some fromSite) (some hashSet) (some address)] ∧
    DispatchMessage (GetObject fromSite objectName)
      = Except.ok [HandlerCall.get (some fromSite) (some objectName)] ∧
    DispatchMessage (AssertClaim claimId name)
      = Except.ok [HandlerCall.claim (some claimId) (some name)] := by
  refine ⟨rfl, rfl, rfl⟩

/-- C6: `DispatchMessage` throws exactly when the envelope's version is not
1 or its op is not one of `HB`/`GET`/`CLAIM`; when it throws, the result
carries no handler invocation, and when it does not throw, exactly one
handler is invoked. -/
theorem dispatch_version_and_op_gate {V : Type} (body : SyncMessage V) :
    ((∃ e, DispatchMessage body = Except.error e) ↔
      (body.version ≠ 1 ∨
        (body.op ≠ "HB" ∧ body.op ≠ "GET" ∧ body.op ≠ "CLAIM"))) ∧
    (∀ calls, DispatchMessage body = Except.ok calls → calls.length = 1) := by
  unfold DispatchMessage
  split_ifs with h1 h2 h3 h4 <;> constructor <;> simp_all

/-- Witness for C6: a version-2 envelope is rejected, and a well-formed
heartbeat envelope produces exactly one handler invocation. -/
theorem dispatch_version_and_op_gate_witness :
    (∃ e, DispatchMessage
        (⟨2, "HB", some 0, some 0, some 0, none, none, none⟩ : SyncMessage Nat)
      = Except.error e) ∧
    ([HandlerCall.hb (V := Nat) (some 1) (some 2) (some 3)]).length = 1 := by
  refine ⟨?_, ?_⟩
  · exact (dispatch_version_and_op_gate
      (⟨2, "HB", some 0, some 0, some 0, none, none, none⟩ : SyncMessage Nat)).1.mpr
      (Or.inl (by decide))
  · exact (dispatch_version_and_op_gate (Heartbeat 1 2 3)).2
      [HandlerCall.hb (V := Nat) (some 1) (some 2) (some 3)] rfl

/-- C10: `DispatchMessage` never invokes its `onSolicit` handler argument:
no op-code routes to it, so a solicit invocation never appears among the
handler calls of a successful dispatch. -/
theorem dispatch_never_invokes_solicit {V : Type} (body : SyncMessage V)
    (calls : List (HandlerCall V)) (h : DispatchMessage body = Except.ok calls)
    (a b : Option V) : HandlerCall.solicit a b ∉ calls := by
  unfold DispatchMessage at h
  split_ifs at h <;>
    first
      | exact Except.noConfusion h
      | · cases Except.ok.inj h
          intro hmem
          exact HandlerCall.noConfusion (List.mem_singleton.mp hmem)

/-- Witness for C10: a concrete heartbeat dispatch contains no solicit
invocation. -/
theorem dispatch_never_invokes_solicit_witness :
    HandlerCall.solicit (V := Nat) none none
      ∉ [HandlerCall.hb (V := Nat) (some 1) (some 2) (some 3)] :=
  dispatch_never_invokes_solicit (Heartbeat 1 2 3)
    [HandlerCall.hb (some 1) (some 2) (some 3)] rfl none none

/-- C5 (modelled from the spec): a CLAIM against a MemberInvitation
succeeds only while `now <= JoinDeadline` and
`InstanceCount < InstanceLimit`; a successful claim increments
`InstanceCount` by exactly 1 and never exceeds `InstanceLimit`, and a claim
fails once `InstanceCount` has reached `InstanceLimit` or the deadline has
passed. -/
theorem memberInvitation_claim_admission (now : Int) (inv : MemberInvitation) :
    (∀ inv', claimInvitation now inv = some inv' →
        now ≤ inv.joinDeadline ∧ inv.instanceCount < inv.instanceLimit ∧
        inv'.instanceCount = inv.instanceCount + 1 ∧
        inv'.instanceLimit = inv.instanceLimit ∧
        inv'.instanceCount ≤ inv.instanceLimit) ∧
    (inv.instanceLimit ≤ inv.instanceCount → claimInvitation now inv = none) ∧
    (inv.joinDeadline < now → claimInvitation now inv = none) := by
  unfold claimInvitation
  split_ifs with h
  · refine ⟨?_, ?_, ?_⟩
    · intro inv' hi
      cases hi
      refine ⟨h.1, h.2, rfl, rfl, ?_⟩
      show inv.instanceCount + 1 ≤ inv.instanceLimit
      have h2 := h.2
      omega
    · intro hc
      exact absurd h.2 (not_lt.mpr hc)
    · intro hc
      exact absurd h.1 (not_le.mpr hc)
  · refine ⟨?_, ?_, ?_⟩
    · intro inv' hi; cases hi
    · intro _; rfl
    · intro _; rfl

/-- Witness for C5: a valid invitation (deadline 100, limit 2, count 1)
claimed at time 50 reaches count 2 without exceeding the limit, and a full
invitation (count = limit = 2) can no longer be claimed. -/
theorem memberInvitation_claim_admission_witness :
    (claimInvitation 50 ⟨100, 2, 1⟩ = some ⟨100, 2, 2⟩ →
      (2 : Int) ≤ 2) ∧
    claimInvitation 50 ⟨100, 2, 2⟩ = none := by
  refine ⟨?_, ?_⟩
  · intro h
    exact ((memberInvitation_claim_admission 50 ⟨100, 2, 1⟩).1 ⟨100, 2, 2⟩ h).2.2.2.2
  · exact (memberInvitation_claim_admission 50 ⟨100, 2, 2⟩).2.1 (by decide)

/-- Counterexample for C8: the `listInvitations` handler acquires a pooled
connection and, when its query throws, exits without ever reaching
`client.release()` — the connection is not released on that path. -/
theorem listInvitations_leaks_connection_on_error :
    listInvitationsConnTrace true = [ConnAction.acquire] ∧
    releasesAllAcquired (listInvitationsConnTrace true) = false := by
  decide

/-- C8 (amended): the pipeline worker passes and the transactional handler
`addHostToAccessPoint` release their pooled connection on every path,
success or error, via their `finally` blocks; the plain `listInvitations`
handler releases only on the error-free path. -/
theorem connection_release_discipline (threw : Bool) :
    releasesAllAcquired (processNewNetworksConnTrace threw) = true ∧
    releasesAllAcquired (processCertificateRequestsConnTrace threw) = true ∧
    releasesAllAcquired (addHostToAccessPointConnTrace threw) = true ∧
    (releasesAllAcquired (listInvitationsConnTrace threw) = true ↔ threw = false) := by
  cases threw <;> decide

/-- Witness for C8 (amended): on the throwing path the workers still
release, while `listInvitations` does not. -/
theorem connection_release_discipline_witness :
    releasesAllAcquired (processNewNetworksConnTrace true) = true ∧
    releasesAllAcquired (listInvitationsConnTrace false) = true := by
  refine ⟨(connection_release_discipline true).1, ?_⟩
  exact (connection_release_discipline false).2.2.2.mpr rfl

/-- When the intake SELECT finds a `new` network, the error-free pass
commits exactly the INSERT followed by the status UPDATE. -/
theorem processNewNetworksPass_eq_of_select (now : Int) (fid : Nat) (dca : Int)
    (s : Store) (row : NetworkRow) (hsel : selectNewNetwork s = some row) :
    processNewNetworksPass now fid dca s
      = advanceNetworkStatus row.id (insertVanCaRequest now fid dca row s) := by
  unfold processNewNetworksPass processNewNetworksTx
  simp [txBegin, txApply, txCommit, hsel]

/-- C1: a pass of the network-intake worker that finds an
ApplicationNetwork with OperStatus `new` inserts exactly one
CertificateRequest of kind `vanCA` for that network, with
CreatedTime = now, RequestTime = the network's StartTime, ExpireTime =
EndTime + DeleteDelay when EndTime is defined and StartTime + the
configured default CA lifetime otherwise, and advances that network's
OperStatus to `cert_request_created`. -/
theorem processNewNetworks_intake (now : Int) (fid : Nat) (dca : Int)
    (s : Store) (row : NetworkRow) (hsel : selectNewNetwork s = some row) :
    (processNewNetworksPass now fid dca s).certRequests
      = s.certRequests ++ [vanCaRequestFor now fid dca row] ∧
    (vanCaRequestFor now fid dca row).requestType = "vanCA" ∧
    (vanCaRequestFor now fid dca row).createdTime = now ∧
    (vanCaRequestFor now fid dca row).requestTime = row.startTime ∧
    (vanCaRequestFor now fid dca row).applicationNetwork = some row.id ∧
    (∀ e, row.endTime = some e →
      (vanCaRequestFor now fid dca row).expireTime = e + row.deleteDelay) ∧
    (row.endTime = none →
      (vanCaRequestFor now fid dca row).expireTime = row.startTime + dca) ∧
    (∀ n ∈ (processNewNetworksPass now fid dca s).networks,
      n.id = row.id → n.operStatus = "cert_request_created") := by
  have hpass := processNewNetworksPass_eq_of_select now fid dca s row hsel
  refine ⟨?_, rfl, rfl, rfl, rfl, ?_, ?_, ?_⟩
  · rw [hpass]; rfl
  · intro e he
    simp [vanCaRequestFor, computeExpireTime, he]
  · intro he
    simp [vanCaRequestFor, computeExpireTime, he]
  · intro n hn hid
    rw [hpass] at hn
    simp only [advanceNetworkStatus, insertVanCaRequest, List.mem_map] at hn
    obtain ⟨m, _, hfm⟩ := hn
    by_cases hc : m.id = row.id
    · rw [if_pos hc] at hfm
      cases hfm
      rfl
    · rw [if_neg hc] at hfm
      cases hfm
      exact absurd hid hc

/-- A concrete network for the intake witness: starts at
2024-01-01T00:00Z (1704067200000 ms), no end time. -/
def c1Net : NetworkRow :=
  { id := 1, name := "net-a", operStatus := "new",
    startTime := 1704067200000, endTime := none, deleteDelay := 0 }

/-- A store holding only `c1Net`. -/
def c1Store : Store :=
  { networks := [c1Net], certRequests := [], tlsCerts := [] }

/-- Witness for C1: with a 365-day (31536000000 ms) default CA lifetime,
the pass generates one `vanCA` request with RequestTime = the start time
and ExpireTime = start + lifetime. -/
theorem processNewNetworks_intake_witness :
    (processNewNetworksPass 5 10 31536000000 c1Store).certRequests
      = [vanCaRequestFor 5 10 31536000000 c1Net] ∧
    (vanCaRequestFor 5 10 31536000000 c1Net).requestTime = 1704067200000 ∧
    (vanCaRequestFor 5 10 31536000000 c1Net).expireTime = 1735603200000 := by
  have h := processNewNetworks_intake 5 10 31536000000 c1Store c1Net (by decide)
  refine ⟨?_, ?_, ?_⟩
  · rw [h.1]; rfl
  · exact h.2.2.2.1
  · rw [h.2.2.2.2.2.2.1 rfl]; decide

/-- A row returned by the fulfillment SELECT satisfies its WHERE clause
and was in the table. -/
theorem selectCertRequest_eligible (now : Int) (s : Store) (r : CertRequestRow)
    (h : selectCertRequest now s = some r) :
    r ∈ s.certRequests ∧ r.requestTime ≤ now ∧ r.processing = false := by
  have hmem : r ∈ (s.certRequests.filter (requestEligible now)).argmin
      (·.createdTime) := Option.mem_def.mpr h
  have hf := List.argmin_mem hmem
  rw [List.mem_filter] at hf
  have he := hf.2
  simp only [requestEligible, Bool.and_eq_true, decide_eq_true_eq,
    Bool.not_eq_true'] at he
  exact ⟨hf.1, he.1, he.2⟩

/-- The row returned by the fulfillment SELECT has minimal CreatedTime
among all rows satisfying the WHERE clause (the ORDER BY). -/
theorem selectCertRequest_min (now : Int) (s : Store) (r r' : CertRequestRow)
    (h : selectCertRequest now s = some r) (hmem : r' ∈ s.certRequests)
    (h1 : r'.requestTime ≤ now) (h2 : r'.processing = false) :
    r.createdTime ≤ r'.createdTime := by
  have hmem' : r' ∈ s.certRequests.filter (requestEligible now) := by
    rw [List.mem_filter]
    refine ⟨hmem, ?_⟩
    simp [requestEligible, h1, h2]
  exact List.le_of_mem_argmin hmem' (Option.mem_def.mpr h)

/-- When the fulfillment SELECT finds an eligible request, the error-free
pass commits exactly the `Processing = true` UPDATE. -/
theorem processCertificateRequestsPass_eq_of_select (now : Int) (s : Store)
    (row : CertRequestRow) (hsel : selectCertRequest now s = some row) :
    processCertificateRequestsPass now s = markProcessing row.id s := by
  unfold processCertificateRequestsPass processCertificateRequestsTx
  simp [txBegin, txApply, txCommit, hsel]

/-- C2: the fulfillment worker selects at most one request per pass, only
among requests with RequestTime <= now and Processing = false, and among
those the one with the smallest CreatedTime; a future-dated request is
never selected, and across successive passes selection follows creation
order (the next pass picks a distinct, no-earlier-created request). -/
theorem processCertificateRequests_selection (now : Int) (s : Store) :
    (∀ r, selectCertRequest now s = some r →
        r ∈ s.certRequests ∧ r.requestTime ≤ now ∧ r.processing = false ∧
        ∀ r' ∈ s.certRequests, r'.requestTime ≤ now → r'.processing = false →
          r.createdTime ≤ r'.createdTime) ∧
    (∀ r, now < r.requestTime → selectCertRequest now s ≠ some r) ∧
    (∀ a b, selectCertRequest now s = some a →
        selectCertRequest now (processCertificateRequestsPass now s) = some b →
        a.createdTime ≤ b.createdTime ∧ b.id ≠ a.id) := by
  refine ⟨?_, ?_, ?_⟩
  · intro r h
    obtain ⟨h1, h2, h3⟩ := selectCertRequest_eligible now s r h
    exact ⟨h1, h2, h3,
      fun r' hm ha hb => selectCertRequest_min now s r r' h hm ha hb⟩
  · intro r hfut hsel
    have hle := (selectCertRequest_eligible now s r hsel).2.1
    omega
  · intro a b ha hb
    have hpass := processCertificateRequestsPass_eq_of_select now s a ha
    rw [hpass] at hb
    obtain ⟨hbmem, hbreq, hbproc⟩ :=
      selectCertRequest_eligible now (markProcessing a.id s) b hb
    simp only [markProcessing, List.mem_map] at hbmem
    obtain ⟨m, hm, hfm⟩ := hbmem
    by_cases hc : m.id = a.id
    · rw [if_pos hc] at hfm
      cases hfm
      simp at hbproc
    · rw [if_neg hc] at hfm
      rw [← hfm] at hbreq hbproc ⊢
      exact ⟨selectCertRequest_min now s a m ha hm hbreq hbproc, hc⟩

/-- An eligible request created at time 1. -/
def c2ReqA : CertRequestRow :=
  { id := 1, requestType := "vanCA", createdTime := 1, requestTime := 0,
    expireTime := 100, applicationNetwork := none, processing := false }

/-- An eligible request created later, at time 2. -/
def c2ReqB : CertRequestRow :=
  { id := 2, requestType := "vanCA", createdTime := 2, requestTime := 0,
    expireTime := 100, applicationNetwork := none, processing := false }

/-- A request created earliest of all but future-dated
(RequestTime 1000). -/
def c2ReqFut : CertRequestRow :=
  { id := 3, requestType := "vanCA", createdTime := 0, requestTime := 1000,
    expireTime := 100, applicationNetwork := none, processing := false }

/-- A store holding the three requests in arbitrary scan order. -/
def c2Store : Store :=
  { networks := [], certRequests := [c2ReqB, c2ReqA, c2ReqFut], tlsCerts := [] }

/-- Witness for C2 at time 50: the earliest-created eligible request is
selected first, the future-dated one never, and the next pass moves on to
the second-created request. -/
theorem processCertificateRequests_selection_witness :
    c2ReqA.requestTime ≤ 50 ∧
    selectCertRequest 50 c2Store ≠ some c2ReqFut ∧
    c2ReqA.createdTime ≤ c2ReqB.createdTime ∧ c2ReqB.id ≠ c2ReqA.id := by
  have h := processCertificateRequests_selection 50 c2Store
  refine ⟨(h.1 c2ReqA (by decide)).2.1, h.2.1 c2ReqFut (by decide), ?_, ?_⟩
  · exact (h.2.2 c2ReqA c2ReqB (by decide) (by decide)).1
  · exact (h.2.2 c2ReqA c2ReqB (by decide) (by decide)).2

/-- An eligible concrete request awaiting fulfillment. -/
def c3Req : CertRequestRow :=
  { id := 7, requestType := "vanCA", createdTime := 0, requestTime := 0,
    expireTime := 1000, applicationNetwork := none, processing := false }

/-- A store holding only `c3Req` and no certificates. -/
def c3Store : Store :=
  { networks := [], certRequests := [c3Req], tlsCerts := [] }

/-- Counterexample for C3: at time 50 the fulfillment pass selects the
eligible request, yet after the commit no TlsCertificate row exists and
the request row has not been deleted — the body only sets the Processing
flag (the generation/attachment/deletion steps are a TODO in the source). -/
theorem certRequest_fulfillment_unimplemented :
    selectCertRequest 50 c3Store = some c3Req ∧
    (processCertificateRequestsPass 50 c3Store).tlsCerts = [] ∧
    (∃ r ∈ (processCertificateRequestsPass 50 c3Store).certRequests,
      r.id = c3Req.id ∧ r.processing = true) := by
  decide

/-- C3 (amended): a fulfillment pass that selects an eligible request
marks that request `Processing = true` by its commit, and does nothing
else: it inserts no TlsCertificate, attaches nothing to the subject, and
does not delete the request row. -/
theorem processCertificateRequests_marks_processing_only (now : Int)
    (s : Store) (row : CertRequestRow)
    (hsel : selectCertRequest now s = some row) :
    (processCertificateRequestsPass now s).tlsCerts = s.tlsCerts ∧
    (processCertificateRequestsPass now s).networks = s.networks ∧
    (processCertificateRequestsPass now s).certRequests.length
      = s.certRequests.length ∧
    (∀ r ∈ (processCertificateRequestsPass now s).certRequests,
      r.id = row.id → r.processing = true) ∧
    (∃ r ∈ (processCertificateRequestsPass now s).certRequests,
      r.id = row.id) := by
  have hpass := processCertificateRequestsPass_eq_of_select now s row hsel
  rw [hpass]
  refine ⟨rfl, rfl, by simp [markProcessing], ?_, ?_⟩
  · intro r hr hid
    simp only [markProcessing, List.mem_map] at hr
    obtain ⟨m, _, hfm⟩ := hr
    by_cases hc : m.id = row.id
    · rw [if_pos hc] at hfm
      cases hfm
      rfl
    · rw [if_neg hc] at hfm
      cases hfm
      exact absurd hid hc
  · have hmem := (selectCertRequest_eligible now s row hsel).1
    refine ⟨{ row with processing := true }, ?_, rfl⟩
    simp only [markProcessing, List.mem_map]
    exact ⟨row, hmem, by simp⟩

/-- Witness for C3 (amended): the concrete fulfillment pass on `c3Store`
leaves the certificate table empty and the request row present but
flagged. -/
theorem processCertificateRequests_marks_processing_only_witness :
    (processCertificateRequestsPass 50 c3Store).tlsCerts = [] ∧
    (∃ r ∈ (processCertificateRequestsPass 50 c3Store).certRequests,
      r.id = c3Req.id) := by
  have h := processCertificateRequests_marks_processing_only 50 c3Store c3Req
    (by decide)
  exact ⟨h.1, h.2.2.2.2⟩

/-- C4: if an error is thrown at any query of either pipeline worker's
pass, the committed database state is exactly what it was before the pass
began — every mutation attempted inside the transaction is rolled back
(in particular, a failure after the intake INSERT but before the status
UPDATE leaves neither the request row nor the status change behind). -/
theorem worker_rollback_atomic (now : Int) (fid : Nat) (dca : Int)
    (k : Nat) (c0 : TxClient) :
    ((processNewNetworksTx now fid dca (some k) c0).2 = true →
      ((processNewNetworksTx now fid dca (some k) c0).1).committed
        = c0.committed) ∧
    ((processCertificateRequestsTx now (some k) c0).2 = true →
      ((processCertificateRequestsTx now (some k) c0).1).committed
        = c0.committed) := by
  constructor
  · rcases hsel : selectNewNetwork (txBegin c0).pending with _ | row <;>
      simp only [processNewNetworksTx, hsel] <;>
      split_ifs <;> intro h <;> first | rfl | simp_all
  · rcases hsel : selectCertRequest now (txBegin c0).pending with _ | row <;>
      simp only [processCertificateRequestsTx, hsel] <;>
      split_ifs <;> intro h <;> first | rfl | simp_all

/-- A client about to run the intake pass over a store with one `new`
network. -/
def c4Client : TxClient :=
  { committed := c1Store, pending := c1Store }

/-- Witness for C4: a failure injected after the INSERT but before the
UPDATE (query 3 of the intake pass) leaves the committed store unchanged;
likewise a failure at the fulfillment SELECT. -/
theorem worker_rollback_atomic_witness :
    ((processNewNetworksTx 5 10 100 (some 3) c4Client).1).committed
      = c4Client.committed ∧
    ((processCertificateRequestsTx 5 (some 1) c4Client).1).committed
      = c4Client.committed := by
  refine ⟨?_, ?_⟩
  · exact (worker_rollback_atomic 5 10 100 3 c4Client).1 (by decide)
  · exact (worker_rollback_atomic 5 10 100 1 c4Client).2 (by decide)

/-- C9: `addHostToAccessPoint` returns 0 and leaves the store unchanged
whenever the ingress key is invalid, the joined access point row is not
found, the access point already has a (nonempty, i.e. truthy) hostname, or
its lifecycle is not `partial`; it returns 1 exactly when all checks pass,
in which case the referenced access point's Hostname and Port are set to
the given values and its Lifecycle to `new`. -/
theorem addHostToAccessPoint_guarded (s : ApStore)
    (bsid key hostname port : String) :
    ((addHostToAccessPoint s bsid key hostname port).1 = 0 ∨
      (addHostToAccessPoint s bsid key hostname port).1 = 1) ∧
    ((addHostToAccessPoint s bsid key hostname port).1 = 0 →
      (addHostToAccessPoint s bsid key hostname port).2 = s) ∧
    ((addHostToAccessPoint s bsid key hostname port).1 = 1 ↔
      ∃ ref access, keyToRef key = some ref ∧
        lookupAccess s bsid ref = some access ∧
        truthyText access.hostname = false ∧
        access.lifecycle = "partial") ∧
    (∀ ref access, keyToRef key = some ref →
      lookupAccess s bsid ref = some access →
      truthyText access.hostname = false → access.lifecycle = "partial" →
      (addHostToAccessPoint s bsid key hostname port).2.accessPoints
        = s.accessPoints.map (fun ap =>
            if ap.id = access.id then
              { ap with hostname := some hostname, port := some port,
                        lifecycle := "new" }
            else ap)) := by
  rcases hkey : keyToRef key with _ | ref
  · have hval : addHostToAccessPoint s bsid key hostname port = (0, s) := by
      simp only [addHostToAccessPoint, hkey]
    rw [hval]
    refine ⟨Or.inl rfl, fun _ => rfl, ⟨fun h => absurd h (by simp), ?_⟩, ?_⟩
    · rintro ⟨ref, access, h1, -⟩
      exact Option.noConfusion h1
    · intro ref access h1 h2 h3 h4
      exact Option.noConfusion h1
  · rcases hacc : lookupAccess s bsid ref with _ | access
    · have hval : addHostToAccessPoint s bsid key hostname port = (0, s) := by
        simp only [addHostToAccessPoint, hkey, hacc]
      rw [hval]
      refine ⟨Or.inl rfl, fun _ => rfl, ⟨fun h => absurd h (by simp), ?_⟩, ?_⟩
      · rintro ⟨ref', access', h1, h2, -⟩
        cases Option.some.inj h1
        rw [hacc] at h2
        exact Option.noConfusion h2
      · intro ref' access' h1 h2 h3 h4
        cases Option.some.inj h1
        rw [hacc] at h2
        exact Option.noConfusion h2
    · by_cases htr : truthyText access.hostname = true
      · have hval : addHostToAccessPoint s bsid key hostname port = (0, s) := by
          simp only [addHostToAccessPoint, hkey, hacc]
          rw [if_pos htr]
        rw [hval]
        refine ⟨Or.inl rfl, fun _ => rfl, ⟨fun h => absurd h (by simp), ?_⟩, ?_⟩
        · rintro ⟨ref', access', h1, h2, h3, -⟩
          cases Option.some.inj h1
          rw [hacc] at h2
          cases Option.some.inj h2
          rw [htr] at h3
          exact Bool.noConfusion h3
        · intro ref' access' h1 h2 h3 h4
          cases Option.some.inj h1
          rw [hacc] at h2
          cases Option.some.inj h2
          rw [htr] at h3
          exact Bool.noConfusion h3
      · by_cases hlc : access.lifecycle = "partial"
        · have hval : addHostToAccessPoint s bsid key hostname port
              = (1, { s with accessPoints := s.accessPoints.map (fun ap =>
                  if ap.id = access.id then
                    { ap with hostname := some hostname, port := some port,
                              lifecycle := "new" }
                  else ap) }) := by
            simp only [addHostToAccessPoint, hkey, hacc]
            rw [if_neg htr, if_neg (not_not_intro hlc)]
          rw [hval]
          refine ⟨Or.inr rfl, ?_, ⟨?_, fun _ => rfl⟩, ?_⟩
          · intro h
            exact absurd h (by simp)
          · intro _
            exact ⟨ref, access, rfl, hacc, Bool.eq_false_iff.mpr htr, hlc⟩
          · intro ref' access' h1 h2 h3 h4
            cases Option.some.inj h1
            rw [hacc] at h2
            cases Option.some.inj h2
            rfl
        · have hval : addHostToAccessPoint s bsid key hostname port = (0, s) := by
            simp only [addHostToAccessPoint, hkey, hacc]
            rw [if_neg htr, if_pos hlc]
          rw [hval]
          refine ⟨Or.inl rfl, fun _ => rfl, ⟨fun h => absurd h (by simp), ?_⟩, ?_⟩
          · rintro ⟨ref', access', h1, h2, h3, h4⟩
            cases Option.some.inj h1
            rw [hacc] at h2
            cases Option.some.inj h2
            exact absurd h4 hlc
          · intro ref' access' h1 h2 h3 h4
            cases Option.some.inj h1
            rw [hacc] at h2
            cases Option.some.inj h2
            exact absurd h4 hlc

/-- A partially configured access point with no hostname yet. -/
def c9Ap : AccessPointRow :=
  { id := 4, hostname := none, port := none, lifecycle := "partial" }

/-- A backbone site whose management access references `c9Ap`. -/
def c9Site : InteriorSiteRow :=
  { id := "site-1", managementAccess := some 4, memberAccess := none,
    peerAccess := none }

/-- The store for the C9 witness. -/
def c9Store : ApStore :=
  { interiorSites := [c9Site], accessPoints := [c9Ap] }

/-- Witness for C9: a valid `skx-manage` ingress succeeds (returns 1), and
an invalid key returns 0 leaving the store untouched. -/
theorem addHostToAccessPoint_guarded_witness :
    (addHostToAccessPoint c9Store "site-1" "skx-manage" "host.example" "443").1
      = 1 ∧
    (addHostToAccessPoint c9Store "site-1" "bogus" "host.example" "443").2
      = c9Store := by
  refine ⟨?_, ?_⟩
  · exact (addHostToAccessPoint_guarded c9Store "site-1" "skx-manage"
      "host.example" "443").2.2.1.mpr
      ⟨AccessRef.manage, c9Ap, by decide, by decide, by decide, by decide⟩
  · exact (addHostToAccessPoint_guarded c9Store "site-1" "bogus"
      "host.example" "443").2.1 (by decide)
